import Mathlib

/-!
Shallow embedding of the declaration-signature verification engine of
`clang-tools-extra/clang-tidy/misc/AssignmentDeclExistCheck.cpp`
(LLVM fork `teodmir/llvm-project`).

Strings handed to the parser are modelled as `List Char`; the C++
`std::string::operator[]` at the one-past-the-end position yields `'\0'`,
which every loop condition in the source rejects, so the list-structural
recursion below is observationally identical.  `std::map` values are
modelled as key-sorted association lists; every operation below mirrors
the `std::map` member actually called at the corresponding source line
(`insert` keeps the existing entry on a duplicate key, `erase` removes
the unique entry for the key, `operator[]++` bumps in place).
-/

namespace DeclExist

/-- C `isalpha` in the C locale, as applied at AssignmentDeclExistCheck.cpp:102. -/
def isAlphaC (c : Char) : Bool :=
  ('a' ≤ c && c ≤ 'z') || ('A' ≤ c && c ≤ 'Z')

/-- ASCII digit test. -/
def isDigitC (c : Char) : Bool :=
  '0' ≤ c && c ≤ '9'

/-- LLVM `isAlphanumeric`, as applied at AssignmentDeclExistCheck.cpp:109. -/
def isAlnumC (c : Char) : Bool :=
  isAlphaC c || isDigitC c

/-- A character legal inside an identifier (loop condition at line 109). -/
def identChar (c : Char) : Bool :=
  isAlnumC c || c = '_'

/-- A valid identifier: first char alphabetic or underscore, rest
alphanumeric or underscore (the shape `parseType` accepts). -/
def validIdent : List Char → Bool
  | [] => false
  | c :: rest => (isAlphaC c || c = '_') && rest.all identChar

/-- `TypeInfo` from AssignmentDeclExistCheck.cpp:30. `pointers` is a C++
`int` that the program only ever sets from a count of consumed `'*'`
characters, so `Nat` is exact. -/
structure TypeInfo where
  isVar : Bool
  name : String
  pointers : Nat
deriving DecidableEq, Repr

/-- `TypeInfo::toString` (lines 39-50): optional `%`, the base name, and
for positive pointer depth a single space followed by that many `*`. -/
def TypeInfo.toString (t : TypeInfo) : String :=
  (if t.isVar then "%" else "") ++ t.name ++
    (if t.pointers > 0 then " " ++ String.mk (List.replicate t.pointers '*') else "")

/-- The `while (s[pos] == ' ') pos++;` loops (lines 98-99 and 119-120),
recursing on the remaining characters while tracking the absolute
position. -/
def skipSpacesAux : List Char → Nat → List Char × Nat
  | c :: rest, pos => if c = ' ' then skipSpacesAux rest (pos + 1) else (c :: rest, pos)
  | [], pos => ([], pos)

/-- The identifier loop (lines 109-112): consume identifier characters,
returning the consumed characters, the remainder and the new position. -/
def identAux : List Char → Nat → List Char → List Char × List Char × Nat
  | c :: rest, pos, acc =>
      if identChar c then identAux rest (pos + 1) (acc ++ [c]) else (acc, c :: rest, pos)
  | [], pos, acc => (acc, [], pos)

/-- The asterisk loop (lines 126-133): every remaining character must be
`'*'`; the position of the first offender is the error. -/
def starsAux : List Char → Nat → Nat → Except Nat Nat
  | [], _, ptrs => .ok ptrs
  | c :: rest, pos, ptrs =>
      if c = '*' then starsAux rest (pos + 1) (ptrs + 1) else .error pos

/-- The pointer-suffix phase of `parseType` (lines 115-135): an already
exhausted input yields depth 0; otherwise skip one run of spaces, fail
at the input length if nothing remains, and count the asterisks.  `s` is
the whole input (carried for the error payload). -/
def parseTail (s : List Char) (isVar : Bool) (name : String) (r3 : List Char)
    (p3 : Nat) : Except (String × Nat) TypeInfo :=
  if r3 = [] then .ok ⟨isVar, name, 0⟩
  else
    let st := skipSpacesAux r3 p3
    match st.1 with
    | [] => .error (String.mk s, st.2)
    | _ =>
      match starsAux st.1 st.2 0 with
      | .ok ptrs => .ok ⟨isVar, name, ptrs⟩
      | .error p => .error (String.mk s, p)

/-- The identifier phase of `parseType` (lines 102-117): the next
character must start an identifier, which is then consumed. -/
def parseIdent (s : List Char) (isVar : Bool) (r2 : List Char) (p2 : Nat) :
    Except (String × Nat) TypeInfo :=
  match r2 with
  | c :: rest =>
      if isAlphaC c || c = '_' then
        let st := identAux rest (p2 + 1) [c]
        parseTail s isVar (String.mk st.1) st.2.1 st.2.2
      else .error (String.mk s, p2)
  | [] => .error (String.mk s, p2)

/-- The `"struct "`-keyword phase of `parseType` (lines 94-100): when
the next seven characters are exactly the keyword, skip them and any
further spaces. -/
def parseStruct (s : List Char) (isVar : Bool) (r1 : List Char) (p1 : Nat) :
    Except (String × Nat) TypeInfo :=
  if r1.take 7 = "struct ".toList then
    let st := skipSpacesAux (r1.drop 7) (p1 + 7)
    parseIdent s isVar st.1 st.2
  else parseIdent s isVar r1 p1

/-- `parseType` (lines 84-136).  Errors carry the whole input string and
the offending position, exactly the payload of `ParseTypeError`.  A
leading `%` marks a placeholder (line 90). -/
def parseType (s : List Char) : Except (String × Nat) TypeInfo :=
  match s with
  | c :: rest => if c = '%' then parseStruct s true rest 1 else parseStruct s false s 0
  | [] => parseStruct s false s 0

/-- Sorted association-list model of `std::map<std::string, α>`. -/
abbrev SMap (α : Type) := List (String × α)

/-- `std::map::find`: the value stored under a key, if any. -/
def mapFind? {α : Type} : SMap α → String → Option α
  | [], _ => none
  | (k', v) :: rest, k => if k' = k then some v else mapFind? rest k

/-- Insert a fresh key at its sorted position (helper for the
`std::map` mutators; only called when the key is absent). -/
def insSorted {α : Type} (k : String) (v : α) : SMap α → SMap α
  | [] => [(k, v)]
  | (k', v') :: rest =>
      if k < k' then (k, v) :: (k', v') :: rest else (k', v') :: insSorted k v rest

/-- `std::map::insert`: on a duplicate key the existing entry is KEPT;
otherwise the pair is stored at its sorted position. -/
def mapInsert {α : Type} (m : SMap α) (k : String) (v : α) : SMap α :=
  if (mapFind? m k).isSome then m else insSorted k v m

/-- `std::map::erase(iterator)` for the unique entry under `k`. -/
def mapErase {α : Type} (m : SMap α) (k : String) : SMap α :=
  m.filter (fun p => p.1 != k)

/-- Replace (in place) the value stored under an existing key. -/
def replaceAt {α : Type} (k : String) (v : α) : SMap α → SMap α
  | [] => []
  | (k', v') :: rest =>
      if k' = k then (k, v) :: rest else (k', v') :: replaceAt k v rest

/-- `m[key]++` on a `std::map<std::string, int>` (countOccurrences,
lines 304-312): default-insert 0 then increment. -/
def mapBump (m : SMap Int) (k : String) : SMap Int :=
  match mapFind? m k with
  | some v => replaceAt k (v + 1) m
  | none => insSorted k 1 m

/-- `ParamMap` (line 28): type-name to occurrence count. -/
abbrev ParamMap := SMap Int

/-- `countOccurrences` (lines 304-312) specialised to strings, the only
instantiation the check uses. -/
def countOccurrences (l : List String) : ParamMap :=
  l.foldl mapBump []

/-- Erase the first element equal to `a` if present (`std::find` +
`erase`, the unnamed-declaration consumption at lines 450-453). -/
def removeFirst {α : Type} [DecidableEq α] (a : α) : List α → List α
  | [] => []
  | x :: xs => if x = a then xs else x :: removeFirst a xs

/-- Erase the first entry whose shape equals `sh` (`std::find_if` +
`erase` on `varStructs`, lines 461-473). -/
def removeFirstShape (sh : ParamMap) : SMap ParamMap → SMap ParamMap
  | [] => []
  | p :: rest => if p.2 = sh then rest else p :: removeFirstShape sh rest

/-- `FuncDecl` (lines 138-165). -/
structure FuncDecl where
  pMap : ParamMap
  retType : String
deriving DecidableEq, Repr

/-- Comma-separated rendering used by `FuncDecl::pretty`. -/
def commaSep : List String → String
  | [] => ""
  | [x] => x
  | x :: xs => x ++ ", " ++ commaSep xs

/-- `FuncDecl::pretty` (lines 154-164). -/
def FuncDecl.pretty (f : FuncDecl) : String :=
  "(" ++ commaSep (f.pMap.map (fun p => p.1 ++ ": " ++ ToString.toString p.2)) ++
    ") -> " ++ f.retType

/-- `prettyMapAsStruct` (lines 167-175). -/
def prettyMapAsStruct (m : ParamMap) : String :=
  "\x7b " ++ String.join (m.map (fun p => p.1 ++ ": " ++ ToString.toString p.2 ++ "; ")) ++ "\x7d;"

/-- `Declarations` (lines 177-183); the empty defaults mirror the
default-initialised global `decls`. -/
structure Declarations where
  functions : SMap FuncDecl := []
  structs : SMap ParamMap := []
  unnamedFunctions : List FuncDecl := []
  unnamedStructs : List ParamMap := []
  varStructs : SMap ParamMap := []
deriving DecidableEq, Repr

/-- The placeholder binding map built at lines 389-393. -/
abbrev VarMap := SMap String

/-- `associateVar` (lines 314-333): parse the template's declared name;
a name that itself parses as a placeholder is skipped ("Redundant
variable"), as is one with pointer asterisks; otherwise bind it
(`std::map::insert`, so an existing binding is kept). -/
def associateVar (var target : String) (varMap : VarMap) : VarMap :=
  match parseType var.toList with
  | .ok t =>
      if t.isVar then varMap
      else if t.pointers > 0 then varMap
      else mapInsert varMap t.name target
  | .error _ => varMap

/-- `resolveVar` (lines 336-353).  A non-placeholder resolves to its
bare base name (the source returns `maybeType->name`, dropping any
pointer suffix); a placeholder is looked up and re-rendered with its
pointer depth preserved.  `none` models the returned `llvm::Error`. -/
def resolveVar (var : String) (varMap : VarMap) : Option String :=
  match parseType var.toList with
  | .error _ => none
  | .ok t =>
      if !t.isVar then some t.name
      else
        match mapFind? varMap t.name with
        | none => none
        | some target => some (TypeInfo.toString ⟨false, target, t.pointers⟩)

/-- `resolveParams` (lines 355-369): each key must parse and resolve;
any failure drops the whole map (the source also returns an error when
`resolveVar` fails).  Resolved keys are inserted into a fresh
`std::map`. -/
def resolveParams (params : ParamMap) (varMap : VarMap) : Option ParamMap :=
  go params []
where
  go : ParamMap → ParamMap → Option ParamMap
    | [], acc => some acc
    | (k, v) :: rest, acc =>
        match parseType k.toList with
        | .error _ => none
        | .ok _ =>
            match resolveVar k varMap with
            | some s => go rest (mapInsert acc s v)
            | none => none

/-- `resolveFunction` (lines 371-385): resolve the parameter map, then
the return type. -/
def resolveFunction (f : FuncDecl) (varMap : VarMap) : Option FuncDecl :=
  match resolveParams f.pMap varMap with
  | none => none
  | some ps =>
      match resolveVar f.retType varMap with
      | none => none
      | some r => some ⟨ps, r⟩

/-- The binding loop at lines 389-393: for every placeholder template
and every observed record with a structurally equal shape, associate. -/
def buildVarMap (varStructs : SMap ParamMap) (foundStructs : SMap ParamMap) : VarMap :=
  varStructs.foldl
    (fun vm var =>
      foundStructs.foldl
        (fun vm found => if var.2 = found.2 then associateVar var.1 found.1 vm else vm)
        vm)
    []

/-- The common shape of the named-declaration resolution loops (lines
395-411 and 431-438): walk the map, keep the successfully resolved
entries, skip the failing ones (the source logs a warning). -/
def resolveFoldAux {α : Type} (resolver : α → Option α) (fs : SMap α) (acc : SMap α) :
    SMap α :=
  fs.foldl
    (fun acc p =>
      match resolver p.2 with
      | some f => mapInsert acc p.1 f
      | none => acc)
    acc

/-- The named-function resolution loop (lines 395-402). -/
def resolveNamedFuncs (fs : SMap FuncDecl) (varMap : VarMap) : SMap FuncDecl :=
  resolveFoldAux (fun fd => resolveFunction fd varMap) fs []

/-- The named-struct / var-struct resolution loops (lines 404-411 and
431-438). -/
def resolveNamedStructs (ss : SMap ParamMap) (varMap : VarMap) : SMap ParamMap :=
  resolveFoldAux (fun m => resolveParams m varMap) ss []

/-- The unnamed-declaration resolution loops (lines 413-429). -/
def resolveUnnamedFuncs (fs : List FuncDecl) (varMap : VarMap) : List FuncDecl :=
  fs.filterMap (fun f => resolveFunction f varMap)

/-- The unnamed-struct resolution loop (lines 422-429). -/
def resolveUnnamedStructs (ss : List ParamMap) (varMap : VarMap) : List ParamMap :=
  ss.filterMap (fun m => resolveParams m varMap)

/-- `checkOverlappingDefinitions` (lines 263-284): `true` means a
collision was found, on which the source calls `exit(EXIT_FAILURE)`. -/
def checkOverlappingDefinitions (d : Declarations) : Bool :=
  d.unnamedFunctions.any (fun f => (d.functions.map Prod.snd).contains f) ||
    d.unnamedStructs.any (fun m => (d.structs.map Prod.snd).contains m)

/-- The observation state: the four global maps at lines 187-190.
Source locations are opaque; we model them as `Nat`. -/
structure ObsState where
  foundFuncs : SMap FuncDecl
  funcLocMap : SMap Nat
  foundStructs : SMap ParamMap
  structLocMap : SMap Nat
deriving DecidableEq, Repr

/-- All four observation maps start empty at the beginning of a pass. -/
def emptyObs : ObsState := ⟨[], [], [], []⟩

/-- `removeStructPrefix` (lines 511-514). -/
def removeStructPrefix (s : String) : String :=
  if "struct ".toList <+: s.toList then String.mk (s.toList.drop 7) else s

/-- `checkFun` (lines 520-536).  A function named `main` is skipped
entirely.  The parameter type strings and return type string arrive from
clang already stringified; `cleanTypeString` strips the `struct `
keyword.  Both insertions are `std::map::insert` (existing entries are
kept). -/
def checkFun (st : ObsState) (name : String) (paramTypes : List String)
    (retType : String) (loc : Nat) : ObsState :=
  if name = "main" then st
  else
    let typeStrings := paramTypes.map removeStructPrefix
    let currentFunc : FuncDecl := ⟨countOccurrences typeStrings, removeStructPrefix retType⟩
    { st with
      foundFuncs := mapInsert st.foundFuncs name currentFunc
      funcLocMap := mapInsert st.funcLocMap name loc }

/-- `checkStruct` (lines 541-550); typedefs reach it through
`checkTypedef` with the typedef's own identifier as the name. -/
def checkStruct (st : ObsState) (name : String) (fieldTypes : List String)
    (loc : Nat) : ObsState :=
  let currentStruct := countOccurrences (fieldTypes.map removeStructPrefix)
  { st with
    foundStructs := mapInsert st.foundStructs name currentStruct
    structLocMap := mapInsert st.structLocMap name loc }

/-- One visitation event delivered by the external AST traversal. -/
inductive ObsInput where
  | func (name : String) (paramTypes : List String) (retType : String) (loc : Nat)
  | record (name : String) (fieldTypes : List String) (loc : Nat)
deriving DecidableEq, Repr

/-- Feed a traversal sequence through `check` (lines 560-571). -/
def applyObs (calls : List ObsInput) (st : ObsState) : ObsState :=
  calls.foldl
    (fun st c =>
      match c with
      | .func n p r l => checkFun st n p r l
      | .record n f l => checkStruct st n f l)
    st

/-- One emitted `diag` ("Expected %0 but got %1").  The location is the
result of the `funcLocMap.find(name)` lookup; `none` models the
dereference of a failed lookup (see C10). -/
structure Diag where
  loc : Option Nat
  expected : String
  actual : String
deriving DecidableEq, Repr

/-- Result of the function-matching loop (lines 441-455). -/
structure MatchFunsResult where
  diags : List Diag
  funcs : SMap FuncDecl
  unnamed : List FuncDecl
deriving DecidableEq, Repr

/-- The function-matching loop (lines 441-455): named first (pop the
entry, diagnose when the signatures differ), else consume one equal
unnamed signature. -/
def matchFuncs (obs : SMap FuncDecl) (funcs : SMap FuncDecl) (unnamed : List FuncDecl)
    (locMap : SMap Nat) : MatchFunsResult :=
  match obs with
  | [] => ⟨[], funcs, unnamed⟩
  | (n, fd) :: rest =>
    match mapFind? funcs n with
    | some efd =>
        let ds := if fd = efd then [] else
          [⟨mapFind? locMap n, efd.pretty, fd.pretty⟩]
        let r := matchFuncs rest (mapErase funcs n) unnamed locMap
        ⟨ds ++ r.diags, r.funcs, r.unnamed⟩
    | none =>
        matchFuncs rest funcs (removeFirst fd unnamed) locMap

/-- Result of the record-matching loop (lines 458-480). -/
structure MatchStructsResult where
  diags : List Diag
  structs : SMap ParamMap
  varStructs : SMap ParamMap
  unnamed : List ParamMap
deriving DecidableEq, Repr

/-- The record-matching loop (lines 458-480): named first (note the
diagnostic's location comes from `funcLocMap`), then a var-struct with
an equal shape, then one equal unnamed shape. -/
def matchStructs (obs : SMap ParamMap) (structs : SMap ParamMap)
    (varStructs : SMap ParamMap) (unnamed : List ParamMap)
    (locMap : SMap Nat) : MatchStructsResult :=
  match obs with
  | [] => ⟨[], structs, varStructs, unnamed⟩
  | (n, sh) :: rest =>
    match mapFind? structs n with
    | some esh =>
        let ds := if sh = esh then [] else
          [⟨mapFind? locMap n, prettyMapAsStruct esh, prettyMapAsStruct sh⟩]
        let r := matchStructs rest (mapErase structs n) varStructs unnamed locMap
        ⟨ds ++ r.diags, r.structs, r.varStructs, r.unnamed⟩
    | none =>
        if (varStructs.find? (fun p => p.2 = sh)).isSome then
          matchStructs rest structs (removeFirstShape sh varStructs) unnamed locMap
        else
          matchStructs rest structs varStructs (removeFirst sh unnamed) locMap

/-- Everything `onEndOfTranslationUnit` emits: the interleaved
diagnostics and the five leftover ("missing") collections printed at
lines 482-506. -/
structure EndResult where
  diags : List Diag
  missingFuncs : SMap FuncDecl
  missingStructs : SMap ParamMap
  missingUnnamedFuncs : List FuncDecl
  missingUnnamedStructs : List ParamMap
  missingVarStructs : SMap ParamMap
deriving DecidableEq, Repr

/-- `onEndOfTranslationUnit` (lines 387-507): bind placeholders, resolve
every expected group, match functions then records, report leftovers.
`structLocMap` is never consulted. -/
def endOfTU (d : Declarations) (st : ObsState) : EndResult :=
  let vm := buildVarMap d.varStructs st.foundStructs
  let funcs := resolveNamedFuncs d.functions vm
  let structs := resolveNamedStructs d.structs vm
  let unnamedFuncs := resolveUnnamedFuncs d.unnamedFunctions vm
  let unnamedStructs := resolveUnnamedStructs d.unnamedStructs vm
  let varStructs := resolveNamedStructs d.varStructs vm
  let rf := matchFuncs st.foundFuncs funcs unnamedFuncs st.funcLocMap
  let rs := matchStructs st.foundStructs structs varStructs unnamedStructs st.funcLocMap
  ⟨rf.diags ++ rs.diags, rf.funcs, rs.structs, rf.unnamed, rs.unnamed, rs.varStructs⟩

/-- A parsed `llvm::json::Value`. -/
inductive JVal where
  | null
  | bool (b : Bool)
  | num (n : Int)
  | str (s : String)
  | arr (elems : List JVal)
  | obj (fields : List (String × JVal))

/-- `llvm::json::Object::get`. -/
def jGet (fields : List (String × JVal)) (k : String) : Option JVal :=
  match fields with
  | [] => none
  | (k', v) :: rest => if k' = k then some v else jGet rest k

/-- `fromJSON` for `int`-valued entries (must be an integer). -/
def jInt : JVal → Option Int
  | .num n => some n
  | _ => none

/-- `fromJSON` for `std::string`. -/
def jStr : JVal → Option String
  | .str s => some s
  | _ => none

/-- `fromJSON` for `std::map<std::string, int>` (a `ParamMap`): an
object whose every value is an integer. -/
def jParamMap : JVal → Option ParamMap
  | .obj fields => go fields []
  | _ => none
where
  go : List (String × JVal) → ParamMap → Option ParamMap
    | [], acc => some acc
    | (k, v) :: rest, acc =>
        match jInt v with
        | some n => go rest (mapInsert acc k n)
        | none => none

/-- The `FuncDecl` overload of `fromJSON` (lines 209-232): an object
with required `params` and `return` properties. -/
def jFuncDecl : JVal → Option FuncDecl
  | .obj fields =>
      match jGet fields "params", jGet fields "return" with
      | some pv, some rv =>
          match jParamMap pv, jStr rv with
          | some ps, some r => some ⟨ps, r⟩
          | _, _ => none
      | _, _ => none
  | _ => none

/-- `fromJSON` for `std::map<std::string, FuncDecl>`. -/
def jNamedFuncs : JVal → Option (SMap FuncDecl)
  | .obj fields => go fields []
  | _ => none
where
  go : List (String × JVal) → SMap FuncDecl → Option (SMap FuncDecl)
    | [], acc => some acc
    | (k, v) :: rest, acc =>
        match jFuncDecl v with
        | some f => go rest (mapInsert acc k f)
        | none => none

/-- `fromJSON` for `std::map<std::string, ParamMap>`. -/
def jNamedStructs : JVal → Option (SMap ParamMap)
  | .obj fields => go fields []
  | _ => none
where
  go : List (String × JVal) → SMap ParamMap → Option (SMap ParamMap)
    | [], acc => some acc
    | (k, v) :: rest, acc =>
        match jParamMap v with
        | some m => go rest (mapInsert acc k m)
        | none => none

/-- `fromJSON` for `std::vector<FuncDecl>`. -/
def jFuncVec : JVal → Option (List FuncDecl)
  | .arr elems => go elems
  | _ => none
where
  go : List JVal → Option (List FuncDecl)
    | [] => some []
    | v :: rest =>
        match jFuncDecl v, go rest with
        | some f, some fs => some (f :: fs)
        | _, _ => none

/-- `fromJSON` for `std::vector<ParamMap>`. -/
def jStructVec : JVal → Option (List ParamMap)
  | .arr elems => go elems
  | _ => none
where
  go : List JVal → Option (List ParamMap)
    | [] => some []
    | v :: rest =>
        match jParamMap v, go rest with
        | some m, some ms => some (m :: ms)
        | _, _ => none

/-- The `Declarations` overload of `fromJSON` (lines 235-260): a single
object whose five recognised keys are all optional, but any present key
must parse. -/
def jDecls : JVal → Option Declarations
  | .obj fields =>
      let parseOpt {α : Type} (k : String) (p : JVal → Option α) (dflt : α) : Option α :=
        match jGet fields k with
        | none => some dflt
        | some v => p v
      match parseOpt "functions" jNamedFuncs [],
            parseOpt "structs" jNamedStructs [],
            parseOpt "functions*" jFuncVec [],
            parseOpt "structs*" jStructVec [],
            parseOpt "%structs" jNamedStructs [] with
      | some fs, some ss, some ufs, some uss, some vs => some ⟨fs, ss, ufs, uss, vs⟩
      | _, _, _, _, _ => none
  | _ => none

/-- The outcome of `readJsonFile` (lines 193-206) from the caller's
point of view: both an unreadable file and malformed JSON call
`exit(EXIT_FAILURE)`. -/
inductive FileRead where
  | ioError
  | jsonSyntaxError
  | ok (v : JVal)

/-- What `registerMatchers` (lines 286-300) leaves behind. -/
inductive CheckSetupResult where
  | disabled
  | fatalExit
  | schemaError
  | registered (d : Declarations)

/-- `registerMatchers` (lines 286-300): empty `DeclFile` disables the
check; `readJsonFile` exits the process on I/O or JSON-syntax failure; a
schema violation prints the path-qualified error and RETURNS (matchers
never registered, no exit); on success the three matchers are added.
The overlap pre-check call at line 296 is commented out and therefore
not performed. -/
def registerMatchers (declFile : Option FileRead) : CheckSetupResult :=
  match declFile with
  | none => .disabled
  | some .ioError => .fatalExit
  | some .jsonSyntaxError => .fatalExit
  | some (.ok v) =>
      match jDecls v with
      | none => .schemaError
      | some d => .registered d

/-- Observable outcome of one whole pass. -/
inductive PassOutcome where
  | aborted
  | silent
  | report (r : EndResult)

/-- One whole pass: when no matchers are registered the check's
callbacks never fire, so nothing is observed, no diagnostic is emitted
and no missing report is printed. -/
def runPass (declFile : Option FileRead) (calls : List ObsInput) : PassOutcome :=
  match registerMatchers declFile with
  | .fatalExit => .aborted
  | .disabled => .silent
  | .schemaError => .silent
  | .registered d => .report (endOfTU d (applyObs calls emptyObs))

/-- Specification-side characterisation: the diagnostic that the
function-matching loop emits for one observed function, given the
expected map and location map it is checked against. -/
def funcDiagOf (funcs : SMap FuncDecl) (locMap : SMap Nat) (p : String × FuncDecl) :
    Option Diag :=
  match mapFind? funcs p.1 with
  | some efd => if p.2 = efd then none else some ⟨mapFind? locMap p.1, efd.pretty, p.2.pretty⟩
  | none => none

/-- Specification-side characterisation: the diagnostic that the
record-matching loop emits for one observed record. -/
def structDiagOf (structs : SMap ParamMap) (locMap : SMap Nat) (p : String × ParamMap) :
    Option Diag :=
  match mapFind? structs p.1 with
  | some esh =>
      if p.2 = esh then none
      else some ⟨mapFind? locMap p.1, prettyMapAsStruct esh, prettyMapAsStruct p.2⟩
  | none => none

/-- Specification-side characterisation: the signature recorded by the
FIRST function observation with the given name in a traversal. -/
def firstFunSig : List ObsInput → String → Option FuncDecl
  | [], _ => none
  | .func m p r _ :: rest, n =>
      if m = n then some ⟨countOccurrences (p.map removeStructPrefix), removeStructPrefix r⟩
      else firstFunSig rest n
  | .record _ _ _ :: rest, n => firstFunSig rest n

/-- Specification-side characterisation: the location recorded by the
FIRST function observation with the given name. -/
def firstFunLoc : List ObsInput → String → Option Nat
  | [], _ => none
  | .func m _ _ l :: rest, n => if m = n then some l else firstFunLoc rest n
  | .record _ _ _ :: rest, n => firstFunLoc rest n

/-- Specification-side characterisation: the shape recorded by the
FIRST record observation with the given name. -/
def firstStructShape : List ObsInput → String → Option ParamMap
  | [], _ => none
  | .func _ _ _ _ :: rest, n => firstStructShape rest n
  | .record m f _ :: rest, n =>
      if m = n then some (countOccurrences (f.map removeStructPrefix))
      else firstStructShape rest n

/-! Lemmas about the `std::map` model. -/

lemma mapFind?_nil {α : Type} (k : String) : mapFind? ([] : SMap α) k = none := rfl

lemma mapFind?_cons {α : Type} (k' k : String) (v : α) (rest : SMap α) :
    mapFind? ((k', v) :: rest) k = if k' = k then some v else mapFind? rest k := rfl

lemma mapFind?_insSorted {α : Type} (m : SMap α) (k : String) (v : α)
    (h : mapFind? m k = none) (k' : String) :
    mapFind? (insSorted k v m) k' = if k' = k then some v else mapFind? m k' := by
  induction m with
  | nil =>
      by_cases hkk : k = k'
      · subst hkk; simp [insSorted, mapFind?]
      · simp [insSorted, mapFind?, hkk, Ne.symm hkk]
  | cons hd tl ih =>
      obtain ⟨a, b⟩ := hd
      rw [mapFind?_cons] at h
      by_cases hak : a = k
      · simp [hak] at h
      · simp only [hak, if_false] at h
        by_cases hlt : k < a
        · simp only [insSorted, hlt, if_true, mapFind?_cons]
          by_cases hkk : k = k'
          · subst hkk; simp [hak, h]
          · simp [hkk, Ne.symm hkk]
        · simp only [insSorted, hlt, if_false, mapFind?_cons]
          by_cases hak' : a = k'
          · have hk'k : ¬ k' = k := fun h' => hak (hak'.trans h')
            simp [hak', hk'k]
          · simp [hak', ih h]

lemma mapFind?_mapInsert {α : Type} (m : SMap α) (k : String) (v : α) (k' : String) :
    mapFind? (mapInsert m k v) k' =
      if k' = k then some ((mapFind? m k).getD v) else mapFind? m k' := by
  unfold mapInsert
  cases hfind : mapFind? m k with
  | some w =>
      simp only [hfind, Option.isSome_some, if_true]
      by_cases hkk : k' = k
      · subst hkk; simp [hfind]
      · simp [hkk]
  | none =>
      simp only [hfind, Option.isSome_none, Bool.false_eq_true, if_false]
      rw [mapFind?_insSorted m k v hfind k']
      by_cases hkk : k' = k <;> simp [hkk]

lemma mapFind?_mapErase {α : Type} (m : SMap α) (k k' : String) :
    mapFind? (mapErase m k) k' = if k' = k then none else mapFind? m k' := by
  induction m with
  | nil => by_cases hkk : k' = k <;> simp [mapErase, mapFind?, hkk]
  | cons hd tl ih =>
      obtain ⟨a, b⟩ := hd
      unfold mapErase at ih ⊢
      by_cases hak : a = k
      · subst hak
        simp only [List.filter_cons, bne_self_eq_false, Bool.false_eq_true, if_false]
        rw [ih]
        by_cases hkk : k' = a
        · simp [hkk]
        · simp [hkk, mapFind?_cons, Ne.symm hkk]
      · have hbne : (a != k) = true := bne_iff_ne.mpr hak
        simp only [List.filter_cons, hbne, if_true]
        rw [mapFind?_cons, ih, mapFind?_cons]
        by_cases hak' : a = k'
        · have hk'k : ¬ k' = k := fun h' => hak (hak'.trans h')
          simp [hak', hk'k]
        · simp [hak']

lemma mapFind?_eq_none_iff {α : Type} (m : SMap α) (k : String) :
    mapFind? m k = none ↔ k ∉ m.map Prod.fst := by
  induction m with
  | nil => simp [mapFind?]
  | cons hd tl ih =>
      obtain ⟨a, b⟩ := hd
      rw [mapFind?_cons]
      by_cases hak : a = k
      · subst hak; simp
      · simp [hak, ih, Ne.symm hak]

/-! Characterisations of the two matching loops. -/

lemma matchFuncs_diags (obs : SMap FuncDecl) (funcs : SMap FuncDecl)
    (unnamed : List FuncDecl) (locMap : SMap Nat)
    (h : (obs.map Prod.fst).Nodup) :
    (matchFuncs obs funcs unnamed locMap).diags = obs.filterMap (funcDiagOf funcs locMap) := by
  induction obs generalizing funcs unnamed with
  | nil => simp [matchFuncs]
  | cons hd rest ih =>
      obtain ⟨n, fd⟩ := hd
      simp only [List.map_cons, List.nodup_cons] at h
      obtain ⟨hn, hrest⟩ := h
      have hcongr : rest.filterMap (funcDiagOf (mapErase funcs n) locMap) =
          rest.filterMap (funcDiagOf funcs locMap) := by
        apply List.filterMap_congr
        intro p hp
        have hpn : ¬ p.1 = n := by
          intro h'
          exact hn (h' ▸ List.mem_map_of_mem Prod.fst hp)
        unfold funcDiagOf
        rw [mapFind?_mapErase, if_neg hpn]
      cases hfind : mapFind? funcs n with
      | some efd =>
          simp only [matchFuncs, hfind, List.filterMap_cons, funcDiagOf, ih _ _ hrest, hcongr]
          by_cases hfd : fd = efd <;> simp [hfd]
      | none =>
          simp only [matchFuncs, hfind, List.filterMap_cons, funcDiagOf, ih _ _ hrest]

lemma matchFuncs_find (obs : SMap FuncDecl) (funcs : SMap FuncDecl)
    (unnamed : List FuncDecl) (locMap : SMap Nat)
    (h : (obs.map Prod.fst).Nodup) (n' : String) :
    mapFind? (matchFuncs obs funcs unnamed locMap).funcs n' =
      if n' ∈ obs.map Prod.fst then none else mapFind? funcs n' := by
  induction obs generalizing funcs unnamed with
  | nil => simp [matchFuncs]
  | cons hd rest ih =>
      obtain ⟨n, fd⟩ := hd
      simp only [List.map_cons, List.nodup_cons] at h
      obtain ⟨hn, hrest⟩ := h
      cases hfind : mapFind? funcs n with
      | some efd =>
          simp only [matchFuncs, hfind]
          rw [ih _ _ hrest]
          by_cases hmem : n' ∈ rest.map Prod.fst
          · simp [hmem, List.mem_cons, or_true]
          · rw [if_neg hmem, mapFind?_mapErase]
            by_cases hnn : n' = n
            · subst hnn; simp
            · simp [hnn, List.mem_cons, hmem]
      | none =>
          simp only [matchFuncs, hfind]
          rw [ih _ _ hrest]
          by_cases hmem : n' ∈ rest.map Prod.fst
          · simp [hmem, List.mem_cons, or_true]
          · by_cases hnn : n' = n
            · subst hnn; simp [List.mem_cons, hmem, hfind]
            · simp [hnn, List.mem_cons, hmem]

lemma matchFuncs_find_notmem (obs : SMap FuncDecl) (funcs : SMap FuncDecl)
    (unnamed : List FuncDecl) (locMap : SMap Nat) (n' : String)
    (h : n' ∉ obs.map Prod.fst) :
    mapFind? (matchFuncs obs funcs unnamed locMap).funcs n' = mapFind? funcs n' := by
  induction obs generalizing funcs unnamed with
  | nil => simp [matchFuncs]
  | cons hd rest ih =>
      obtain ⟨n, fd⟩ := hd
      simp only [List.map_cons, List.mem_cons] at h
      push_neg at h
      obtain ⟨hnn, hrest⟩ := h
      cases hfind : mapFind? funcs n with
      | some efd =>
          simp only [matchFuncs, hfind]
          rw [ih _ _ hrest, mapFind?_mapErase, if_neg hnn]
      | none =>
          simp only [matchFuncs, hfind]
          exact ih _ _ hrest

lemma matchStructs_diags (obs : SMap ParamMap) (structs varStructs : SMap ParamMap)
    (unnamed : List ParamMap) (locMap : SMap Nat)
    (h : (obs.map Prod.fst).Nodup) :
    (matchStructs obs structs varStructs unnamed locMap).diags =
      obs.filterMap (structDiagOf structs locMap) := by
  induction obs generalizing structs varStructs unnamed with
  | nil => simp [matchStructs]
  | cons hd rest ih =>
      obtain ⟨n, sh⟩ := hd
      simp only [List.map_cons, List.nodup_cons] at h
      obtain ⟨hn, hrest⟩ := h
      have hcongr : rest.filterMap (structDiagOf (mapErase structs n) locMap) =
          rest.filterMap (structDiagOf structs locMap) := by
        apply List.filterMap_congr
        intro p hp
        have hpn : ¬ p.1 = n := by
          intro h'
          exact hn (h' ▸ List.mem_map_of_mem Prod.fst hp)
        unfold structDiagOf
        rw [mapFind?_mapErase, if_neg hpn]
      cases hfind : mapFind? structs n with
      | some esh =>
          simp only [matchStructs, hfind, List.filterMap_cons, structDiagOf, ih _ _ _ hrest,
            hcongr]
          by_cases hsh : sh = esh <;> simp [hsh]
      | none =>
          simp only [matchStructs, hfind, List.filterMap_cons, structDiagOf]
          by_cases hvar : (varStructs.find? (fun p => p.2 = sh)).isSome <;>
            simp [hvar, ih _ _ _ hrest]

lemma matchStructs_find (obs : SMap ParamMap) (structs varStructs : SMap ParamMap)
    (unnamed : List ParamMap) (locMap : SMap Nat)
    (h : (obs.map Prod.fst).Nodup) (n' : String) :
    mapFind? (matchStructs obs structs varStructs unnamed locMap).structs n' =
      if n' ∈ obs.map Prod.fst then none else mapFind? structs n' := by
  induction obs generalizing structs varStructs unnamed with
  | nil => simp [matchStructs]
  | cons hd rest ih =>
      obtain ⟨n, sh⟩ := hd
      simp only [List.map_cons, List.nodup_cons] at h
      obtain ⟨hn, hrest⟩ := h
      cases hfind : mapFind? structs n with
      | some esh =>
          simp only [matchStructs, hfind]
          rw [ih _ _ _ hrest]
          by_cases hmem : n' ∈ rest.map Prod.fst
          · simp [hmem, List.mem_cons, or_true]
          · rw [if_neg hmem, mapFind?_mapErase]
            by_cases hnn : n' = n
            · subst hnn; simp
            · simp [hnn, List.mem_cons, hmem]
      | none =>
          simp only [matchStructs, hfind]
          by_cases hvar : (varStructs.find? (fun p => p.2 = sh)).isSome <;>
            [skip; skip] <;>
          · simp only [hvar, if_true, if_false, Bool.false_eq_true]
            rw [ih _ _ _ hrest]
            by_cases hmem : n' ∈ rest.map Prod.fst
            · simp [hmem, List.mem_cons, or_true]
            · by_cases hnn : n' = n
              · subst hnn; simp [List.mem_cons, hmem, hfind]
              · simp [hnn, List.mem_cons, hmem]

/-! Characterisations of the observation collector. -/

lemma applyObs_foundFuncs_find (calls : List ObsInput) (st : ObsState) (n : String) :
    mapFind? (applyObs calls st).foundFuncs n =
      (mapFind? st.foundFuncs n).or (if n = "main" then none else firstFunSig calls n) := by
  induction calls generalizing st with
  | nil =>
      simp only [applyObs, List.foldl_nil, firstFunSig, ite_self, Option.or_none]
  | cons c rest ih =>
      cases c with
      | func m p r l =>
          simp only [applyObs, List.foldl_cons] at ih ⊢
          rw [ih]
          by_cases hm : m = "main"
          · subst hm
            by_cases hn : n = "main"
            · subst hn
              simp [checkFun]
            · have hst : checkFun st "main" p r l = st := by simp [checkFun]
              rw [hst]
              simp only [firstFunSig, if_neg (Ne.symm hn), if_neg hn]
          · by_cases hnm : n = m
            · subst hnm
              simp only [checkFun, if_neg hm, firstFunSig, if_pos rfl]
              rw [mapFind?_mapInsert, if_pos rfl]
              cases mapFind? st.foundFuncs n <;> simp
            · simp only [checkFun, if_neg hm, firstFunSig, if_neg (Ne.symm hnm)]
              rw [mapFind?_mapInsert, if_neg hnm]
      | record m f l =>
          simp only [applyObs, List.foldl_cons] at ih ⊢
          rw [ih]
          simp only [checkStruct, firstFunSig]

lemma applyObs_funcLocMap_find (calls : List ObsInput) (st : ObsState) (n : String) :
    mapFind? (applyObs calls st).funcLocMap n =
      (mapFind? st.funcLocMap n).or (if n = "main" then none else firstFunLoc calls n) := by
  induction calls generalizing st with
  | nil =>
      simp only [applyObs, List.foldl_nil, firstFunLoc, ite_self, Option.or_none]
  | cons c rest ih =>
      cases c with
      | func m p r l =>
          simp only [applyObs, List.foldl_cons] at ih ⊢
          rw [ih]
          by_cases hm : m = "main"
          · subst hm
            by_cases hn : n = "main"
            · subst hn
              simp [checkFun]
            · have hst : checkFun st "main" p r l = st := by simp [checkFun]
              rw [hst]
              simp only [firstFunLoc, if_neg (Ne.symm hn), if_neg hn]
          · by_cases hnm : n = m
            · subst hnm
              simp only [checkFun, if_neg hm, firstFunLoc, if_pos rfl]
              rw [mapFind?_mapInsert, if_pos rfl]
              cases mapFind? st.funcLocMap n <;> simp
            · simp only [checkFun, if_neg hm, firstFunLoc, if_neg (Ne.symm hnm)]
              rw [mapFind?_mapInsert, if_neg hnm]
      | record m f l =>
          simp only [applyObs, List.foldl_cons] at ih ⊢
          rw [ih]
          simp only [checkStruct, firstFunLoc]

lemma applyObs_foundStructs_find (calls : List ObsInput) (st : ObsState) (n : String) :
    mapFind? (applyObs calls st).foundStructs n =
      (mapFind? st.foundStructs n).or (firstStructShape calls n) := by
  induction calls generalizing st with
  | nil =>
      simp only [applyObs, List.foldl_nil, firstStructShape, Option.or_none]
  | cons c rest ih =>
      cases c with
      | func m p r l =>
          simp only [applyObs, List.foldl_cons] at ih ⊢
          rw [ih]
          by_cases hm : m = "main" <;> simp only [checkFun, hm, if_true, if_false,
            firstStructShape]
      | record m f l =>
          simp only [applyObs, List.foldl_cons] at ih ⊢
          rw [ih]
          simp only [checkStruct]
          by_cases hnm : n = m
          · subst hnm
            simp only [firstStructShape, if_pos rfl]
            rw [mapFind?_mapInsert, if_pos rfl]
            cases mapFind? st.foundStructs n <;> simp
          · simp only [firstStructShape, if_neg (Ne.symm hnm)]
            rw [mapFind?_mapInsert, if_neg hnm]

lemma applyObs_main_notmem (calls : List ObsInput) :
    "main" ∉ ((applyObs calls emptyObs).foundFuncs.map Prod.fst) := by
  rw [← mapFind?_eq_none_iff]
  rw [applyObs_foundFuncs_find]
  simp [emptyObs, mapFind?]

/-! Lemmas about the type-token parser. -/

lemma skipSpacesAux_replicate (k : Nat) (rest : List Char) (p : Nat)
    (h : ∀ c, rest.head? = some c → ¬ c = ' ') :
    skipSpacesAux (List.replicate k ' ' ++ rest) p = (rest, p + k) := by
  induction k generalizing p with
  | zero =>
      simp only [List.replicate_zero, List.nil_append, Nat.add_zero]
      cases rest with
      | nil => simp [skipSpacesAux]
      | cons c tl => simp [skipSpacesAux, h c rfl]
  | succ k ih =>
      have hstep : skipSpacesAux (List.replicate (k + 1) ' ' ++ rest) p =
          skipSpacesAux (List.replicate k ' ' ++ rest) (p + 1) := by
        rw [List.replicate_succ, List.cons_append]
        rfl
      rw [hstep, ih (p + 1)]
      have h3 : p + 1 + k = p + (k + 1) := by omega
      rw [h3]

lemma identAux_append (L rest : List Char) (p : Nat) (acc : List Char)
    (hL : ∀ c ∈ L, identChar c = true)
    (hrest : ∀ c, rest.head? = some c → identChar c = false) :
    identAux (L ++ rest) p acc = (acc ++ L, rest, p + L.length) := by
  induction L generalizing p acc with
  | nil =>
      simp only [List.nil_append, List.append_nil, List.length_nil, Nat.add_zero]
      cases rest with
      | nil => simp [identAux]
      | cons c tl => simp [identAux, hrest c rfl]
  | cons c L0 ih =>
      have hc : identChar c = true := hL c (List.mem_cons_self c L0)
      have hstep : identAux ((c :: L0) ++ rest) p acc =
          if identChar c then identAux (L0 ++ rest) (p + 1) (acc ++ [c])
          else (acc, c :: (L0 ++ rest), p) := rfl
      rw [hstep, if_pos hc,
        ih (p + 1) (acc ++ [c]) (fun d hd => hL d (List.mem_cons_of_mem c hd))]
      simp only [Prod.mk.injEq, List.append_assoc, List.singleton_append, List.length_cons]
      refine ⟨trivial, trivial, by omega⟩

lemma starsAux_replicate (n p q : Nat) :
    starsAux (List.replicate n '*') p q = .ok (q + n) := by
  induction n generalizing p q with
  | zero => simp [starsAux]
  | succ n ih =>
      have hstep : starsAux (List.replicate (n + 1) '*') p q =
          starsAux (List.replicate n '*') (p + 1) (q + 1) := by
        rw [List.replicate_succ]
        rfl
      rw [hstep, ih]
      have h3 : q + 1 + n = q + (n + 1) := by omega
      rw [h3]

lemma structKwList : "struct ".toList = 's' :: 't' :: 'r' :: 'u' :: 'c' :: 't' :: ' ' :: [] := rfl

/-- The `"struct "` keyword test at line 95 never fires on a rendered
`TypeInfo` unless the base name is literally `struct` and a pointer
suffix follows. -/
lemma take_seven_ne_structKw (L suffix : List Char)
    (hL : ∀ c ∈ L, identChar c = true)
    (hsuf : suffix = [] ∨ ∃ k, suffix = ' ' :: List.replicate (k + 1) '*')
    (hns : ¬(L = "struct".toList ∧ suffix ≠ [])) :
    ¬ ((L ++ suffix).take 7 = "struct ".toList) := by
  intro heq
  cases hsuf with
  | inl hnil =>
      subst hnil
      rw [List.append_nil] at heq
      have hsp : ' ' ∈ L.take 7 := by
        rw [heq, structKwList]; simp
      have := hL ' ' (List.mem_of_mem_take hsp)
      simp [identChar, isAlnumC, isAlphaC, isDigitC] at this
  | inr hex =>
      obtain ⟨k, hk⟩ := hex
      subst hk
      by_cases h7 : 7 ≤ L.length
      · have htake : (L ++ ' ' :: List.replicate (k + 1) '*').take 7 = L.take 7 := by
          rw [List.take_append_eq_append_take]
          have : 7 - L.length = 0 := by omega
          rw [this]
          simp
        rw [htake] at heq
        have hsp : ' ' ∈ L.take 7 := by
          rw [heq, structKwList]; simp
        have := hL ' ' (List.mem_of_mem_take hsp)
        simp [identChar, isAlnumC, isAlphaC, isDigitC] at this
      · by_cases h6 : L.length = 6
        · have htake : (L ++ ' ' :: List.replicate (k + 1) '*').take 7 = L ++ [' '] := by
            rw [List.take_append_eq_append_take]
            have h1 : 7 - L.length = 1 := by omega
            rw [h1, List.take_of_length_le (by omega), List.take_cons (by omega)]
            simp
          rw [htake, structKwList] at heq
          have heq' : L ++ [' '] = ('s' :: 't' :: 'r' :: 'u' :: 'c' :: 't' :: []) ++ [' '] := by
            rw [heq]; rfl
          have hL6 : L = 's' :: 't' :: 'r' :: 'u' :: 'c' :: 't' :: [] :=
            List.append_inj_left heq' (by simp [h6])
          exact hns ⟨hL6.trans rfl, by simp⟩
        · have h5 : L.length ≤ 5 := by omega
          have hstar : '*' ∈ (L ++ ' ' :: List.replicate (k + 1) '*').take 7 := by
            rw [List.take_append_eq_append_take]
            apply List.mem_append_right
            have h2 : ∃ m, 7 - L.length = m + 2 := ⟨5 - L.length, by omega⟩
            obtain ⟨m, hm⟩ := h2
            rw [hm, List.take_cons (by omega), List.replicate_succ,
              List.take_cons (by omega)]
            simp
          rw [heq, structKwList] at hstar
          simp at hstar

/-- Unfolding of `TypeInfo::toString` into its character list. -/
lemma toString_data (t : TypeInfo) :
    (TypeInfo.toString t).toList =
      (if t.isVar then ['%'] else []) ++ t.name.toList ++
        (if t.pointers > 0 then ' ' :: List.replicate t.pointers '*' else []) := by
  unfold TypeInfo.toString
  by_cases hv : t.isVar <;> by_cases hp : t.pointers > 0 <;>
    simp [hv, hp, String.data_append, String.toList]

lemma firstChar_identChar (c : Char) (h : (isAlphaC c || c = '_') = true) :
    identChar c = true := by
  by_cases hA : isAlphaC c = true
  · simp [identChar, isAlnumC, hA]
  · have hA' : isAlphaC c = false := by simpa using hA
    rw [hA'] at h
    simp only [Bool.false_or] at h
    have hc : c = '_' := by simpa using h
    subst hc
    decide

lemma firstChar_ne_percent (c : Char) (h : (isAlphaC c || c = '_') = true) :
    ¬ c = '%' := by
  intro hc
  subst hc
  exact absurd h (by decide)

lemma parseTail_nil (s : List Char) (isVar : Bool) (nm : String) (q : Nat) :
    parseTail s isVar nm [] q = .ok ⟨isVar, nm, 0⟩ := rfl

lemma parseTail_spaces_stars (s : List Char) (isVar : Bool) (nm : String) (k m q : Nat) :
    parseTail s isVar nm (List.replicate k ' ' ++ List.replicate (m + 1) '*') q =
      .ok ⟨isVar, nm, m + 1⟩ := by
  unfold parseTail
  rw [if_neg (by simp)]
  have hhead : ∀ c, (List.replicate (m + 1) '*').head? = some c → ¬ c = ' ' := by
    intro c hc
    rw [List.replicate_succ] at hc
    simp at hc
    subst hc
    decide
  rw [skipSpacesAux_replicate k _ q hhead]
  simp only
  rw [List.replicate_succ]
  have hstars : starsAux ('*' :: List.replicate m '*') (q + k) 0 = .ok (m + 1) := by
    have h0 : starsAux ('*' :: List.replicate m '*') (q + k) 0 =
        starsAux (List.replicate m '*') (q + k + 1) 1 := rfl
    rw [h0, starsAux_replicate]
    have h1 : 1 + m = m + 1 := by omega
    rw [h1]
  rw [hstars]

lemma parseTail_stars (s : List Char) (isVar : Bool) (nm : String) (m q : Nat) :
    parseTail s isVar nm (' ' :: List.replicate (m + 1) '*') q = .ok ⟨isVar, nm, m + 1⟩ :=
  parseTail_spaces_stars s isVar nm 1 m q

lemma parseTail_spaces_nil (s : List Char) (isVar : Bool) (nm : String) (k q : Nat) :
    parseTail s isVar nm (List.replicate (k + 1) ' ') q =
      .error (String.mk s, q + (k + 1)) := by
  unfold parseTail
  rw [if_neg (by simp)]
  have h := skipSpacesAux_replicate (k + 1) [] q (by intro c hc; simp at hc)
  rw [List.append_nil] at h
  rw [h]

lemma parseIdent_render (s : List Char) (isVar : Bool) (c0 : Char) (L0 suffix : List Char)
    (p : Nat) (hc0 : (isAlphaC c0 || c0 = '_') = true)
    (hall : ∀ c ∈ L0, identChar c = true)
    (hsufhead : ∀ c, suffix.head? = some c → identChar c = false) :
    parseIdent s isVar (c0 :: (L0 ++ suffix)) p =
      parseTail s isVar (String.mk (c0 :: L0)) suffix (p + 1 + L0.length) := by
  have hstep : parseIdent s isVar (c0 :: (L0 ++ suffix)) p =
      if (isAlphaC c0 || c0 = '_' : Bool) then
        parseTail s isVar (String.mk (identAux (L0 ++ suffix) (p + 1) [c0]).1)
          (identAux (L0 ++ suffix) (p + 1) [c0]).2.1
          (identAux (L0 ++ suffix) (p + 1) [c0]).2.2
      else .error (String.mk s, p) := rfl
  rw [hstep, if_pos hc0, identAux_append L0 suffix (p + 1) [c0] hall hsufhead]
  simp

lemma parseStruct_render (s : List Char) (isVar : Bool) (c0 : Char) (L0 : List Char)
    (ptrs p : Nat) (hc0 : (isAlphaC c0 || c0 = '_') = true)
    (hall : ∀ c ∈ L0, identChar c = true)
    (hns : ¬(c0 :: L0 = "struct".toList ∧ 0 < ptrs)) :
    parseStruct s isVar
      ((c0 :: L0) ++ (if ptrs > 0 then ' ' :: List.replicate ptrs '*' else [])) p =
      .ok ⟨isVar, String.mk (c0 :: L0), ptrs⟩ := by
  have hIdAll : ∀ c ∈ c0 :: L0, identChar c = true := by
    intro c hc
    rcases List.mem_cons.mp hc with h | h
    · rw [h]; exact firstChar_identChar c0 hc0
    · exact hall c h
  cases ptrs with
  | zero =>
      simp only [gt_iff_lt, Nat.lt_irrefl, if_false, List.append_nil]
      have h7 : ¬ ((c0 :: L0).take 7 = "struct ".toList) := by
        have := take_seven_ne_structKw (c0 :: L0) [] hIdAll (Or.inl rfl)
          (fun h => h.2 rfl)
        rwa [List.append_nil] at this
      unfold parseStruct
      rw [if_neg h7]
      have hsh : (c0 :: L0 : List Char) = c0 :: (L0 ++ []) := by simp
      conv_lhs => rw [hsh]
      rw [parseIdent_render s isVar c0 L0 [] p hc0 hall (fun c hc => by simp at hc)]
      exact parseTail_nil s isVar _ _
  | succ m =>
      simp only [gt_iff_lt, Nat.succ_pos, if_true]
      have hns' : ¬(c0 :: L0 = "struct".toList ∧
          (' ' :: List.replicate (m + 1) '*' : List Char) ≠ []) :=
        fun h => hns ⟨h.1, Nat.succ_pos m⟩
      unfold parseStruct
      rw [if_neg (take_seven_ne_structKw (c0 :: L0) _ hIdAll (Or.inr ⟨m, rfl⟩) hns')]
      rw [List.cons_append]
      rw [parseIdent_render s isVar c0 L0 _ p hc0 hall
        (fun c hc => by simp at hc; subst hc; decide)]
      exact parseTail_stars s isVar _ m _

/-- Parsing the rendered form of a descriptor returns the descriptor,
provided the name is a valid identifier and the rendered string does not
begin with the literal `"struct "` keyword (i.e. the name is `struct`
with a positive pointer depth). -/
lemma parseType_toString (d : TypeInfo) (h1 : validIdent d.name.toList = true)
    (h2 : ¬(d.name = "struct" ∧ 0 < d.pointers)) :
    parseType (TypeInfo.toString d).toList = .ok d := by
  obtain ⟨isVar, name, ptrs⟩ := d
  simp only at h1 h2
  rw [toString_data]
  simp only
  rcases hLs : name.toList with _ | ⟨c0, L0⟩
  · rw [hLs] at h1; simp [validIdent] at h1
  · rw [hLs] at h1
    simp only [validIdent, Bool.and_eq_true] at h1
    obtain ⟨hc0, hallb⟩ := h1
    have hall : ∀ c ∈ L0, identChar c = true := by
      intro c hc
      exact List.all_eq_true.mp hallb c hc
    have hmk : String.mk (c0 :: L0) = name := String.ext hLs.symm
    have hns : ¬(c0 :: L0 = "struct".toList ∧ 0 < ptrs) := by
      intro hcontr
      exact h2 ⟨String.ext (hLs.trans hcontr.1), hcontr.2⟩
    cases isVar with
    | true =>
        have hshape : (if (true : Bool) then ['%'] else []) ++ (c0 :: L0) ++
            (if ptrs > 0 then ' ' :: List.replicate ptrs '*' else []) =
            '%' :: ((c0 :: L0) ++
              (if ptrs > 0 then ' ' :: List.replicate ptrs '*' else [])) := by simp
        rw [hshape]
        have hstep : parseType ('%' :: ((c0 :: L0) ++
            (if ptrs > 0 then ' ' :: List.replicate ptrs '*' else []))) =
            parseStruct ('%' :: ((c0 :: L0) ++
              (if ptrs > 0 then ' ' :: List.replicate ptrs '*' else []))) true
              ((c0 :: L0) ++ (if ptrs > 0 then ' ' :: List.replicate ptrs '*' else []))
              1 := rfl
        rw [hstep, parseStruct_render _ true c0 L0 ptrs 1 hc0 hall hns, hmk]
    | false =>
        have hshape : (if (false : Bool) then ['%'] else []) ++ (c0 :: L0) ++
            (if ptrs > 0 then ' ' :: List.replicate ptrs '*' else []) =
            (c0 :: L0) ++
              (if ptrs > 0 then ' ' :: List.replicate ptrs '*' else []) := by simp
        rw [hshape, List.cons_append]
        have hstep : parseType (c0 :: (L0 ++
            (if ptrs > 0 then ' ' :: List.replicate ptrs '*' else []))) =
            if c0 = '%' then
              parseStruct (c0 :: (L0 ++
                (if ptrs > 0 then ' ' :: List.replicate ptrs '*' else []))) true
                (L0 ++ (if ptrs > 0 then ' ' :: List.replicate ptrs '*' else [])) 1
            else
              parseStruct (c0 :: (L0 ++
                (if ptrs > 0 then ' ' :: List.replicate ptrs '*' else []))) false
                (c0 :: (L0 ++ (if ptrs > 0 then ' ' :: List.replicate ptrs '*' else [])))
                0 := rfl
        rw [hstep, if_neg (firstChar_ne_percent c0 hc0), ← List.cons_append]
        rw [parseStruct_render _ false c0 L0 ptrs 0 hc0 hall hns, hmk]

/-! Characterisations of the named-declaration resolution loops. -/

lemma mapFind?_resolveFoldAux {α : Type} (resolver : α → Option α) (fs : SMap α)
    (acc : SMap α) (h : (fs.map Prod.fst).Nodup) (n : String) :
    mapFind? (resolveFoldAux resolver fs acc) n =
      (mapFind? acc n).or ((mapFind? fs n).bind resolver) := by
  induction fs generalizing acc with
  | nil =>
      simp only [resolveFoldAux, List.foldl_nil, mapFind?, Option.none_bind, Option.or_none]
  | cons hd rest ih =>
      obtain ⟨k, fd⟩ := hd
      simp only [List.map_cons, List.nodup_cons] at h
      obtain ⟨hk, hrest⟩ := h
      have hstep : resolveFoldAux resolver ((k, fd) :: rest) acc =
          resolveFoldAux resolver rest
            (match resolver fd with
             | some f => mapInsert acc k f
             | none => acc) := rfl
      rw [hstep]
      cases hres : resolver fd with
      | some f =>
          simp only
          rw [ih _ hrest, mapFind?_cons]
          by_cases hnk : k = n
          · subst hnk
            rw [mapFind?_mapInsert, if_pos rfl]
            simp only [if_pos rfl, hres, Option.some_bind]
            cases mapFind? acc k <;> simp [hres]
          · rw [mapFind?_mapInsert, if_neg (Ne.symm hnk), if_neg hnk]
      | none =>
          simp only
          rw [ih _ hrest, mapFind?_cons]
          by_cases hnk : k = n
          · subst hnk
            have hrn : mapFind? rest k = none := (mapFind?_eq_none_iff rest k).mpr hk
            simp [hrn, hres]
          · rw [if_neg hnk]

lemma resolveNamedFuncs_find (fs : SMap FuncDecl) (vm : VarMap)
    (h : (fs.map Prod.fst).Nodup) (n : String) :
    mapFind? (resolveNamedFuncs fs vm) n =
      (mapFind? fs n).bind (fun fd => resolveFunction fd vm) := by
  have hg := mapFind?_resolveFoldAux (fun fd => resolveFunction fd vm) fs [] h n
  simpa [resolveNamedFuncs, mapFind?] using hg

lemma resolveNamedStructs_find (ss : SMap ParamMap) (vm : VarMap)
    (h : (ss.map Prod.fst).Nodup) (n : String) :
    mapFind? (resolveNamedStructs ss vm) n =
      (mapFind? ss n).bind (fun m => resolveParams m vm) := by
  have hg := mapFind?_resolveFoldAux (fun m => resolveParams m vm) ss [] h n
  simpa [resolveNamedStructs, mapFind?] using hg

/-- A name with no function observation in the traversal has no entry in
the location map built from the empty start state. -/
lemma firstFunLoc_eq_none (calls : List ObsInput) (n : String)
    (h : ∀ p r l, ObsInput.func n p r l ∉ calls) :
    firstFunLoc calls n = none := by
  induction calls with
  | nil => rfl
  | cons c rest ih =>
      cases c with
      | func m p r l =>
          have hm : ¬ m = n := by
            intro hmn
            exact h p r l (by rw [← hmn]; exact List.mem_cons_self _ _)
          simp only [firstFunLoc, if_neg hm]
          exact ih (fun p r l hmem => h p r l (List.mem_cons_of_mem _ hmem))
      | record m f l =>
          simp only [firstFunLoc]
          exact ih (fun p r l hmem => h p r l (List.mem_cons_of_mem _ hmem))

/-- An input starting with `int` never matches the `"struct "` keyword
test. -/
lemma take_seven_int (X : List Char) :
    ¬ ((('i' :: 'n' :: 't' :: X : List Char)).take 7 = "struct ".toList) := by
  intro h
  rw [show (('i' :: 'n' :: 't' :: X : List Char)).take 7 =
      'i' :: 'n' :: 't' :: (X.take 4) from rfl, structKwList] at h
  simp at h

/-- The first character after the identifier of `int<spaces><stars>` is
a space or an asterisk, neither a legal identifier character. -/
lemma spaces_stars_head (k n : Nat) :
    ∀ c, (List.replicate k ' ' ++ List.replicate (n + 1) '*').head? = some c →
      identChar c = false := by
  intro c hc
  cases k with
  | zero =>
      rw [List.replicate_zero, List.nil_append, List.replicate_succ] at hc
      simp at hc
      subst hc
      decide
  | succ k =>
      rw [List.replicate_succ, List.cons_append] at hc
      simp at hc
      subst hc
      decide

/-! The claims. -/

/-- Claim C1: for every observed function whose name is a key in the
expected named-functions map, matching removes exactly that one entry
(the name is absent from the final leftover map and entries for
unobserved names are untouched), and the emitted diagnostics are exactly
one `SignatureMismatch` per such observation whose signature differs,
carrying the lookup of the observed function's location and both
pretty-printed signatures. -/
theorem claim_C1 (obs funcs : SMap FuncDecl) (unnamed : List FuncDecl)
    (locMap : SMap Nat) (hobs : (obs.map Prod.fst).Nodup) (n : String)
    (fd efd : FuncDecl) (hmem : (n, fd) ∈ obs)
    (hexp : mapFind? funcs n = some efd) :
    mapFind? (matchFuncs obs funcs unnamed locMap).funcs n = none ∧
    (∀ m, m ∉ obs.map Prod.fst →
      mapFind? (matchFuncs obs funcs unnamed locMap).funcs m = mapFind? funcs m) ∧
    (matchFuncs obs funcs unnamed locMap).diags =
      obs.filterMap (funcDiagOf funcs locMap) ∧
    funcDiagOf funcs locMap (n, fd) =
      (if fd = efd then none
       else some ⟨mapFind? locMap n, efd.pretty, fd.pretty⟩) := by
  refine ⟨?_, ?_, matchFuncs_diags obs funcs unnamed locMap hobs, ?_⟩
  · rw [matchFuncs_find obs funcs unnamed locMap hobs n,
      if_pos (List.mem_map_of_mem Prod.fst hmem)]
  · intro m hm
    rw [matchFuncs_find obs funcs unnamed locMap hobs m, if_neg hm]
  · simp [funcDiagOf, hexp]

theorem claim_C1_witness :
    ((([("foo", FuncDecl.mk [("char", 1), ("int", 1)] "int")] :
        SMap FuncDecl).map Prod.fst).Nodup ∧
     ("foo", FuncDecl.mk [("char", 1), ("int", 1)] "int") ∈
       ([("foo", FuncDecl.mk [("char", 1), ("int", 1)] "int")] : SMap FuncDecl) ∧
     mapFind? ([("foo", FuncDecl.mk [("int", 1)] "int")] : SMap FuncDecl) "foo" =
       some (FuncDecl.mk [("int", 1)] "int")) ∧
    (mapFind? (matchFuncs [("foo", FuncDecl.mk [("char", 1), ("int", 1)] "int")]
        [("foo", FuncDecl.mk [("int", 1)] "int")] [] [("foo", 3)]).funcs "foo" = none ∧
     (∀ m, m ∉ ([("foo", FuncDecl.mk [("char", 1), ("int", 1)] "int")] :
         SMap FuncDecl).map Prod.fst →
       mapFind? (matchFuncs [("foo", FuncDecl.mk [("char", 1), ("int", 1)] "int")]
         [("foo", FuncDecl.mk [("int", 1)] "int")] [] [("foo", 3)]).funcs m =
         mapFind? [("foo", FuncDecl.mk [("int", 1)] "int")] m) ∧
     (matchFuncs [("foo", FuncDecl.mk [("char", 1), ("int", 1)] "int")]
         [("foo", FuncDecl.mk [("int", 1)] "int")] [] [("foo", 3)]).diags =
       ([("foo", FuncDecl.mk [("char", 1), ("int", 1)] "int")] :
         SMap FuncDecl).filterMap
           (funcDiagOf [("foo", FuncDecl.mk [("int", 1)] "int")] [("foo", 3)]) ∧
     funcDiagOf [("foo", FuncDecl.mk [("int", 1)] "int")] [("foo", 3)]
         ("foo", FuncDecl.mk [("char", 1), ("int", 1)] "int") =
       (if FuncDecl.mk [("char", 1), ("int", 1)] "int" = FuncDecl.mk [("int", 1)] "int"
        then none
        else some ⟨mapFind? [("foo", 3)] "foo",
          (FuncDecl.mk [("int", 1)] "int").pretty,
          (FuncDecl.mk [("char", 1), ("int", 1)] "int").pretty⟩)) :=
  ⟨⟨by decide, by decide, by decide⟩,
    claim_C1 [("foo", FuncDecl.mk [("char", 1), ("int", 1)] "int")]
      [("foo", FuncDecl.mk [("int", 1)] "int")] [] [("foo", 3)] (by decide) "foo"
      (FuncDecl.mk [("char", 1), ("int", 1)] "int") (FuncDecl.mk [("int", 1)] "int")
      (by decide) (by decide)⟩

/-- Claim C4 counterexample: two function observations named `f` (first
with return type `int`, then `char`); the map keeps the FIRST signature,
not the last as the claim asserts (`std::map::insert` does not
overwrite). -/
theorem claim_C4_counterexample :
    mapFind? (checkFun (checkFun emptyObs "f" [] "int" 0) "f" [] "char" 1).foundFuncs
        "f" = some (FuncDecl.mk [] "int") ∧
    ¬ (mapFind? (checkFun (checkFun emptyObs "f" [] "int" 0) "f" [] "char" 1).foundFuncs
        "f" = some (FuncDecl.mk [] "char")) :=
  ⟨rfl, by decide⟩

/-- Claim C4 as amended: for every traversal sequence, the observed
function (record) under a name is the FIRST declaration with that name
in traversal order — duplicate names are resolved first-write-wins (and
`main` is never recorded). -/
theorem claim_C4_amended (calls : List ObsInput) (n : String) :
    mapFind? (applyObs calls emptyObs).foundFuncs n =
      (if n = "main" then none else firstFunSig calls n) ∧
    mapFind? (applyObs calls emptyObs).foundStructs n = firstStructShape calls n := by
  constructor
  · rw [applyObs_foundFuncs_find]
    simp [emptyObs, mapFind?]
  · rw [applyObs_foundStructs_find]
    simp [emptyObs, mapFind?]

/-- Claim C5 counterexample: the parser accepts a pointer suffix with NO
separating space as well as with two spaces, so "exactly one space" is
not required. -/
theorem claim_C5_counterexample :
    parseType "int*".toList = .ok ⟨false, "int", 1⟩ ∧
    parseType "int  *".toList = .ok ⟨false, "int", 1⟩ :=
  ⟨rfl, rfl⟩

/-- Claim C5 as amended: after the base identifier the parser skips one
run of zero or more spaces and then requires one or more asterisks; any
run length is accepted, input ending after the spaces fails at the input
length, and a non-asterisk after the run fails at the index of the first
illegal character (position 5, the second space, in `"int * *"`). -/
theorem claim_C5_amended :
    (∀ k n : Nat,
      parseType ("int".toList ++ List.replicate k ' ' ++ List.replicate (n + 1) '*') =
        .ok ⟨false, "int", n + 1⟩) ∧
    (∀ k : Nat,
      parseType ("int".toList ++ List.replicate (k + 1) ' ') =
        .error (String.mk ("int".toList ++ List.replicate (k + 1) ' '), 4 + k)) ∧
    parseType "int * *".toList = .error ("int * *", 5) := by
  refine ⟨?_, ?_, rfl⟩
  · intro k n
    have h1 : parseType ("int".toList ++ List.replicate k ' ' ++
        List.replicate (n + 1) '*') =
        parseStruct ("int".toList ++ List.replicate k ' ' ++ List.replicate (n + 1) '*')
          false
          ("int".toList ++ List.replicate k ' ' ++ List.replicate (n + 1) '*') 0 := rfl
    rw [h1]
    simp only [show ("int".toList : List Char) = 'i' :: 'n' :: 't' :: [] from rfl,
      List.cons_append, List.nil_append]
    unfold parseStruct
    rw [if_neg (take_seven_int (List.replicate k ' ' ++ List.replicate (n + 1) '*'))]
    have h2 : parseIdent
        ('i' :: 'n' :: 't' :: (List.replicate k ' ' ++ List.replicate (n + 1) '*')) false
        ('i' :: 'n' :: 't' :: (List.replicate k ' ' ++ List.replicate (n + 1) '*')) 0 =
        parseTail ('i' :: 'n' :: 't' :: (List.replicate k ' ' ++ List.replicate (n + 1) '*'))
          false "int" (List.replicate k ' ' ++ List.replicate (n + 1) '*') 3 :=
      parseIdent_render _ false 'i' ['n', 't'] _ 0 (by decide) (by decide)
        (spaces_stars_head k n)
    rw [h2, parseTail_spaces_stars]
  · intro k
    have h1 : parseType ("int".toList ++ List.replicate (k + 1) ' ') =
        parseStruct ("int".toList ++ List.replicate (k + 1) ' ') false
          ("int".toList ++ List.replicate (k + 1) ' ') 0 := rfl
    rw [h1]
    simp only [show ("int".toList : List Char) = 'i' :: 'n' :: 't' :: [] from rfl,
      List.cons_append, List.nil_append]
    unfold parseStruct
    rw [if_neg (take_seven_int (List.replicate (k + 1) ' '))]
    have h2 : parseIdent ('i' :: 'n' :: 't' :: List.replicate (k + 1) ' ') false
        ('i' :: 'n' :: 't' :: List.replicate (k + 1) ' ') 0 =
        parseTail ('i' :: 'n' :: 't' :: List.replicate (k + 1) ' ') false "int"
          (List.replicate (k + 1) ' ') 3 :=
      parseIdent_render _ false 'i' ['n', 't'] _ 0 (by decide) (by decide)
        (by
          intro c hc
          simp at hc
          subst hc
          decide)
    rw [h2, parseTail_spaces_nil]
    have h3 : 3 + (k + 1) = 4 + k := by omega
    rw [h3]

/-- Claim C6 counterexample: the descriptor with valid identifier name
`struct` and pointer depth 1 renders as `"struct *"`, whose parse fails
at position 7 (the `"struct "` keyword is stripped first), so the
round-trip does not hold for every valid identifier. -/
theorem claim_C6_counterexample :
    validIdent (TypeInfo.mk false "struct" 1).name.toList = true ∧
    parseType ((TypeInfo.mk false "struct" 1).toString).toList =
      .error ("struct *", 7) :=
  ⟨by decide, rfl⟩

/-- Claim C6 as amended: parsing the rendered form of a descriptor
returns a structurally equal descriptor for every valid-identifier name,
except when the name is literally `struct` and the pointer depth is
positive (the render then starts with the `"struct "` keyword, which the
parser strips). -/
theorem claim_C6_amended (d : TypeInfo) (h1 : validIdent d.name.toList = true)
    (h2 : ¬(d.name = "struct" ∧ 0 < d.pointers)) :
    parseType (TypeInfo.toString d).toList = .ok d :=
  parseType_toString d h1 h2

theorem claim_C6_amended_witness :
    (validIdent (TypeInfo.mk true "x_1" 3).name.toList = true ∧
     ¬((TypeInfo.mk true "x_1" 3).name = "struct" ∧
        0 < (TypeInfo.mk true "x_1" 3).pointers)) ∧
    parseType (TypeInfo.toString (TypeInfo.mk true "x_1" 3)).toList =
      .ok (TypeInfo.mk true "x_1" 3) :=
  ⟨⟨by decide, by decide⟩, claim_C6_amended (TypeInfo.mk true "x_1" 3) (by decide)
    (by decide)⟩

/-- Claim C2 counterexample: with the template written as
`%structs {"%T": {"int": 1}}` — the key itself parsing as a placeholder,
as the claim requires — `associateVar` skips it ("Redundant variable"),
so no binding is created and the function `f` referencing `%T` is
dropped from resolution instead of getting parameter multiset
`{Point: 1}`. -/
theorem claim_C2_counterexample :
    buildVarMap [("%T", [("int", 1)])]
      (applyObs [ObsInput.record "Point" ["int"] 10,
        ObsInput.func "f" ["Point"] "void" 20] emptyObs).foundStructs = [] ∧
    mapFind? (resolveNamedFuncs [("f", FuncDecl.mk [("%T", 1)] "void")]
      (buildVarMap [("%T", [("int", 1)])]
        (applyObs [ObsInput.record "Point" ["int"] 10,
          ObsInput.func "f" ["Point"] "void" 20] emptyObs).foundStructs)) "f" = none ∧
    ¬ (mapFind? (resolveNamedFuncs [("f", FuncDecl.mk [("%T", 1)] "void")]
      (buildVarMap [("%T", [("int", 1)])]
        (applyObs [ObsInput.record "Point" ["int"] 10,
          ObsInput.func "f" ["Point"] "void" 20] emptyObs).foundStructs)) "f" =
      some (FuncDecl.mk [("Point", 1)] "void")) :=
  ⟨rfl, rfl, by decide⟩

/-- Claim C2 as amended: a placeholder-record key must be a plain
identifier WITHOUT the `%` marker (a key that itself parses as a
placeholder is skipped with a "Redundant variable" warning and binds
nothing); with `%structs {"T": {"int": 1}}`, an observed record `Point`
of shape `{int: 1}` binds `T` to `Point`, the expected `f` with
parameter `%T: 1` resolves to parameter multiset `{Point: 1}`, and
matching an observed `f(Point)` yields no diagnostic and no missing
entry. -/
theorem claim_C2_amended :
    associateVar "%T" "Point" [] = [] ∧
    buildVarMap [("T", [("int", 1)])]
      (applyObs [ObsInput.record "Point" ["int"] 10,
        ObsInput.func "f" ["Point"] "void" 20] emptyObs).foundStructs =
      [("T", "Point")] ∧
    mapFind? (resolveNamedFuncs [("f", FuncDecl.mk [("%T", 1)] "void")]
      [("T", "Point")]) "f" = some (FuncDecl.mk [("Point", 1)] "void") ∧
    endOfTU
      { functions := [("f", FuncDecl.mk [("%T", 1)] "void")],
        varStructs := [("T", [("int", 1)])] }
      (applyObs [ObsInput.record "Point" ["int"] 10,
        ObsInput.func "f" ["Point"] "void" 20] emptyObs) =
      ⟨[], [], [], [], [], []⟩ :=
  ⟨rfl, rfl, rfl, rfl⟩

/-- Claim C3 counterexample: a well-formed JSON configuration violating
the schema (a `functions` entry without `"return"`) makes
`registerMatchers` print the path-qualified error and RETURN — the
outcome is `schemaError`, not the fatal process exit the claim
asserts. -/
theorem claim_C3_counterexample :
    registerMatchers (some (FileRead.ok (JVal.obj [("functions",
      JVal.obj [("foo", JVal.obj [("params", JVal.obj [])])])]))) =
      CheckSetupResult.schemaError ∧
    CheckSetupResult.schemaError ≠ CheckSetupResult.fatalExit :=
  ⟨rfl, fun h => CheckSetupResult.noConfusion h⟩

/-- Claim C3 as amended: a schema violation is NOT fatal — the check
prints a path-qualified error and disables itself for the run (no
matchers registered, hence no observation, zero diagnostics and zero
missing-report output), while an unreadable file or malformed JSON text
does abort the whole process with a non-zero exit. -/
theorem claim_C3_amended (calls : List ObsInput) :
    runPass (some (FileRead.ok (JVal.obj [("functions",
      JVal.obj [("foo", JVal.obj [("params", JVal.obj [])])])]))) calls =
      PassOutcome.silent ∧
    runPass (some FileRead.jsonSyntaxError) calls = PassOutcome.aborted ∧
    runPass (some FileRead.ioError) calls = PassOutcome.aborted :=
  ⟨rfl, rfl, rfl⟩

/-- Claim C7: an expected function whose resolution fails (e.g. an
unbound placeholder reference) is dropped: it is absent from the
resolved map, absent from the final missing report, contributes no
diagnostic (the run's diagnostics are exactly the per-observation
results, and its observation yields none), and every other expected
function resolves exactly as it would on its own. -/
theorem claim_C7 (d : Declarations) (st : ObsState) (n : String) (fd : FuncDecl)
    (hkeys : (d.functions.map Prod.fst).Nodup)
    (hobsF : (st.foundFuncs.map Prod.fst).Nodup)
    (hobsS : (st.foundStructs.map Prod.fst).Nodup)
    (hfind : mapFind? d.functions n = some fd)
    (hfail : resolveFunction fd (buildVarMap d.varStructs st.foundStructs) = none) :
    mapFind? (resolveNamedFuncs d.functions
      (buildVarMap d.varStructs st.foundStructs)) n = none ∧
    mapFind? (endOfTU d st).missingFuncs n = none ∧
    (∀ fdo, funcDiagOf
      (resolveNamedFuncs d.functions (buildVarMap d.varStructs st.foundStructs))
      st.funcLocMap (n, fdo) = none) ∧
    (endOfTU d st).diags =
      st.foundFuncs.filterMap (funcDiagOf
        (resolveNamedFuncs d.functions (buildVarMap d.varStructs st.foundStructs))
        st.funcLocMap) ++
      st.foundStructs.filterMap (structDiagOf
        (resolveNamedStructs d.structs (buildVarMap d.varStructs st.foundStructs))
        st.funcLocMap) ∧
    (∀ m, ¬ m = n →
      mapFind? (resolveNamedFuncs d.functions
        (buildVarMap d.varStructs st.foundStructs)) m =
        (mapFind? d.functions m).bind
          (fun g => resolveFunction g (buildVarMap d.varStructs st.foundStructs))) := by
  have hres1 : mapFind? (resolveNamedFuncs d.functions
      (buildVarMap d.varStructs st.foundStructs)) n = none := by
    rw [resolveNamedFuncs_find _ _ hkeys, hfind]
    simp [hfail]
  refine ⟨hres1, ?_, ?_, ?_, ?_⟩
  · simp only [endOfTU]
    rw [matchFuncs_find _ _ _ _ hobsF n]
    by_cases hmem : n ∈ st.foundFuncs.map Prod.fst
    · rw [if_pos hmem]
    · rw [if_neg hmem]
      exact hres1
  · intro fdo
    simp [funcDiagOf, hres1]
  · simp only [endOfTU]
    rw [matchFuncs_diags _ _ _ _ hobsF, matchStructs_diags _ _ _ _ _ hobsS]
  · intro m hm
    rw [resolveNamedFuncs_find _ _ hkeys]

theorem claim_C7_witness :
    ((([("f", FuncDecl.mk [] "%U"), ("g", FuncDecl.mk [] "int")] :
        SMap FuncDecl).map Prod.fst).Nodup ∧
     ((emptyObs.foundFuncs.map Prod.fst).Nodup) ∧
     ((emptyObs.foundStructs.map Prod.fst).Nodup) ∧
     mapFind? ([("f", FuncDecl.mk [] "%U"), ("g", FuncDecl.mk [] "int")] :
       SMap FuncDecl) "f" = some (FuncDecl.mk [] "%U") ∧
     resolveFunction (FuncDecl.mk [] "%U")
       (buildVarMap ([] : SMap ParamMap) emptyObs.foundStructs) = none) ∧
    (mapFind? (resolveNamedFuncs
        [("f", FuncDecl.mk [] "%U"), ("g", FuncDecl.mk [] "int")]
        (buildVarMap ([] : SMap ParamMap) emptyObs.foundStructs)) "f" = none ∧
     mapFind? (endOfTU
        { functions := [("f", FuncDecl.mk [] "%U"), ("g", FuncDecl.mk [] "int")] }
        emptyObs).missingFuncs "f" = none ∧
     (∀ fdo, funcDiagOf (resolveNamedFuncs
        [("f", FuncDecl.mk [] "%U"), ("g", FuncDecl.mk [] "int")]
        (buildVarMap ([] : SMap ParamMap) emptyObs.foundStructs))
        emptyObs.funcLocMap ("f", fdo) = none) ∧
     (endOfTU { functions := [("f", FuncDecl.mk [] "%U"),
          ("g", FuncDecl.mk [] "int")] } emptyObs).diags =
       emptyObs.foundFuncs.filterMap (funcDiagOf (resolveNamedFuncs
         [("f", FuncDecl.mk [] "%U"), ("g", FuncDecl.mk [] "int")]
         (buildVarMap ([] : SMap ParamMap) emptyObs.foundStructs))
         emptyObs.funcLocMap) ++
       emptyObs.foundStructs.filterMap (structDiagOf (resolveNamedStructs
         ([] : SMap ParamMap)
         (buildVarMap ([] : SMap ParamMap) emptyObs.foundStructs))
         emptyObs.funcLocMap) ∧
     (∀ m, ¬ m = "f" →
       mapFind? (resolveNamedFuncs
         [("f", FuncDecl.mk [] "%U"), ("g", FuncDecl.mk [] "int")]
         (buildVarMap ([] : SMap ParamMap) emptyObs.foundStructs)) m =
         (mapFind? ([("f", FuncDecl.mk [] "%U"), ("g", FuncDecl.mk [] "int")] :
           SMap FuncDecl) m).bind
           (fun g => resolveFunction g
             (buildVarMap ([] : SMap ParamMap) emptyObs.foundStructs)))) :=
  ⟨⟨by decide, by decide, by decide, by decide, by decide⟩,
    claim_C7 { functions := [("f", FuncDecl.mk [] "%U"), ("g", FuncDecl.mk [] "int")] }
      emptyObs "f" (FuncDecl.mk [] "%U") (by decide) (by decide) (by decide)
      (by decide) (by decide)⟩

/-- Claim C8: a function named `main` is never observed (`checkFun`
leaves the state untouched for it, and the maps built from the empty
start state never contain it), so it is never matched: the expected
`main` entry survives matching untouched — it stays in the leftover
("missing") map exactly as resolution produced it. -/
theorem claim_C8 (calls : List ObsInput) (d : Declarations) :
    (∀ st p r l, checkFun st "main" p r l = st) ∧
    "main" ∉ ((applyObs calls emptyObs).foundFuncs.map Prod.fst) ∧
    mapFind? (endOfTU d (applyObs calls emptyObs)).missingFuncs "main" =
      mapFind? (resolveNamedFuncs d.functions
        (buildVarMap d.varStructs (applyObs calls emptyObs).foundStructs)) "main" := by
  refine ⟨fun st p r l => by simp [checkFun], applyObs_main_notmem calls, ?_⟩
  simp only [endOfTU]
  exact matchFuncs_find_notmem _ _ _ _ _ (applyObs_main_notmem calls)

/-- Claim C9 counterexample: a configuration with an anonymous function
structurally identical to a named one IS a collision
(`checkOverlappingDefinitions` would abort), yet `registerMatchers`
loads it and registers the matchers — the call to the overlap check at
line 296 is commented out, so the engine does not verify before
matching. -/
theorem claim_C9_counterexample :
    checkOverlappingDefinitions
      { functions := [("f", FuncDecl.mk [("int", 1)] "int")],
        unnamedFunctions := [FuncDecl.mk [("int", 1)] "int"] } = true ∧
    registerMatchers (some (FileRead.ok (JVal.obj
      [("functions", JVal.obj [("f", JVal.obj
          [("params", JVal.obj [("int", JVal.num 1)]), ("return", JVal.str "int")])]),
       ("functions*", JVal.arr [JVal.obj
          [("params", JVal.obj [("int", JVal.num 1)]),
           ("return", JVal.str "int")]])]))) =
      CheckSetupResult.registered
        { functions := [("f", FuncDecl.mk [("int", 1)] "int")],
          unnamedFunctions := [FuncDecl.mk [("int", 1)] "int"] } :=
  ⟨rfl, rfl⟩

/-- Claim C9 as amended: `checkOverlappingDefinitions` exists and, for
every catalog in which some anonymous function is structurally identical
to a named one, reports the collision (the source then exits); but the
current `registerMatchers` never invokes it — the call is commented out
— so such a configuration is registered and proceeds to matching
without aborting. -/
theorem claim_C9_amended (d : Declarations) (fd : FuncDecl)
    (h1 : fd ∈ d.unnamedFunctions) (h2 : fd ∈ d.functions.map Prod.snd) :
    checkOverlappingDefinitions d = true ∧
    registerMatchers (some (FileRead.ok (JVal.obj
      [("functions", JVal.obj [("g", JVal.obj
          [("params", JVal.obj []), ("return", JVal.str "void")])]),
       ("functions*", JVal.arr [JVal.obj
          [("params", JVal.obj []), ("return", JVal.str "void")]])]))) =
      CheckSetupResult.registered
        { functions := [("g", FuncDecl.mk [] "void")],
          unnamedFunctions := [FuncDecl.mk [] "void"] } := by
  constructor
  · unfold checkOverlappingDefinitions
    have hany : d.unnamedFunctions.any
        (fun f => (d.functions.map Prod.snd).contains f) = true := by
      rw [List.any_eq_true]
      exact ⟨fd, h1, List.elem_eq_true_of_mem h2⟩
    rw [hany, Bool.true_or]
  · rfl

theorem claim_C9_amended_witness :
    ((FuncDecl.mk [("int", 1)] "int" ∈
        ({ functions := [("f", FuncDecl.mk [("int", 1)] "int")],
           unnamedFunctions := [FuncDecl.mk [("int", 1)] "int"] } :
          Declarations).unnamedFunctions) ∧
     (FuncDecl.mk [("int", 1)] "int" ∈
        ({ functions := [("f", FuncDecl.mk [("int", 1)] "int")],
           unnamedFunctions := [FuncDecl.mk [("int", 1)] "int"] } :
          Declarations).functions.map Prod.snd)) ∧
    (checkOverlappingDefinitions
        { functions := [("f", FuncDecl.mk [("int", 1)] "int")],
          unnamedFunctions := [FuncDecl.mk [("int", 1)] "int"] } = true ∧
     registerMatchers (some (FileRead.ok (JVal.obj
        [("functions", JVal.obj [("g", JVal.obj
            [("params", JVal.obj []), ("return", JVal.str "void")])]),
         ("functions*", JVal.arr [JVal.obj
            [("params", JVal.obj []), ("return", JVal.str "void")]])]))) =
        CheckSetupResult.registered
          { functions := [("g", FuncDecl.mk [] "void")],
            unnamedFunctions := [FuncDecl.mk [] "void"] }) :=
  ⟨⟨by decide, by decide⟩,
    claim_C9_amended
      { functions := [("f", FuncDecl.mk [("int", 1)] "int")],
        unnamedFunctions := [FuncDecl.mk [("int", 1)] "int"] }
      (FuncDecl.mk [("int", 1)] "int") (by decide) (by decide)⟩

/-- Claim C10: the record-mismatch diagnostic's location is looked up in
`funcLocMap` (the whole end-of-unit result is invariant under replacing
`structLocMap`, which is written but never read); its payload carries
`mapFind? funcLocMap name`, which is `none` for every record-only name
(one with no function observation in the traversal), so the source's
iterator dereference can only succeed when a function of the same name
was also observed. -/
theorem claim_C10 (d : Declarations) (st : ObsState) (lm : SMap Nat)
    (structs varStructs : SMap ParamMap) (unnamed : List ParamMap)
    (calls : List ObsInput) (n : String)
    (hobs : (st.foundStructs.map Prod.fst).Nodup)
    (hnofun : ∀ p r l, ObsInput.func n p r l ∉ calls) :
    endOfTU d { st with structLocMap := lm } = endOfTU d st ∧
    (matchStructs st.foundStructs structs varStructs unnamed st.funcLocMap).diags =
      st.foundStructs.filterMap (structDiagOf structs st.funcLocMap) ∧
    (∀ esh sh, mapFind? structs n = some esh → ¬ sh = esh →
      structDiagOf structs st.funcLocMap (n, sh) =
        some ⟨mapFind? st.funcLocMap n,
          prettyMapAsStruct esh, prettyMapAsStruct sh⟩) ∧
    mapFind? (applyObs calls emptyObs).funcLocMap n = none := by
  refine ⟨rfl, matchStructs_diags _ _ _ _ _ hobs, ?_, ?_⟩
  · intro esh sh hfind hne
    simp [structDiagOf, hfind, hne]
  · rw [applyObs_funcLocMap_find]
    simp only [emptyObs, mapFind?, Option.none_or]
    by_cases hn : n = "main"
    · simp [hn]
    · rw [if_neg hn]
      exact firstFunLoc_eq_none calls n hnofun

theorem claim_C10_witness :
    ((((checkStruct emptyObs "Point" ["int"] 7).foundStructs.map Prod.fst).Nodup) ∧
     (∀ p r l, ObsInput.func "Point" p r l ∉ [ObsInput.record "Point" ["int"] 7])) ∧
    (endOfTU {} { checkStruct emptyObs "Point" ["int"] 7 with structLocMap := [("X", 9)] } =
       endOfTU {} (checkStruct emptyObs "Point" ["int"] 7) ∧
     (matchStructs (checkStruct emptyObs "Point" ["int"] 7).foundStructs
        [("Point", [("char", 1)])] [] [] (checkStruct emptyObs "Point" ["int"] 7).funcLocMap).diags =
       (checkStruct emptyObs "Point" ["int"] 7).foundStructs.filterMap
         (structDiagOf [("Point", [("char", 1)])]
           (checkStruct emptyObs "Point" ["int"] 7).funcLocMap) ∧
     (∀ esh sh, mapFind? [("Point", [("char", 1)])] "Point" = some esh → ¬ sh = esh →
       structDiagOf [("Point", [("char", 1)])]
         (checkStruct emptyObs "Point" ["int"] 7).funcLocMap ("Point", sh) =
         some ⟨mapFind? (checkStruct emptyObs "Point" ["int"] 7).funcLocMap "Point",
           prettyMapAsStruct esh, prettyMapAsStruct sh⟩) ∧
     mapFind? (applyObs [ObsInput.record "Point" ["int"] 7] emptyObs).funcLocMap
       "Point" = none) :=
  ⟨⟨by decide, by intro p r l h; simp at h⟩,
    claim_C10 {} (checkStruct emptyObs "Point" ["int"] 7) [("X", 9)]
      [("Point", [("char", 1)])] [] [] [ObsInput.record "Point" ["int"] 7] "Point"
      (by decide) (by intro p r l h; simp at h)⟩

end DeclExist
